import Mathlib

set_option linter.unusedVariables false

/-!
Verification of the four-bar linkage kinematic core (`src/functions.py`).

The embedding follows the source code:

* `check_valid` embeds the Grashof validity checker `check_valid` of the
  source.  Python floats are modelled as elements of a linear ordered
  field (the claims are stated at `ℝ`); Python's `max(links)` /
  `min(links)` become `max4` / `min4`, `links.index(x)` becomes
  `List.findIdx` on the same four-element list (first occurrence),
  `del links[i]` becomes `List.eraseIdx`, and the final `if / elif` pair
  is embedded literally, with the (unreachable) fall-through returning
  `none`.

* `calculate_linkage` embeds the angle solver.  `scipy.optimize.fsolve`
  is external library code, so it is modelled as an abstract parameter
  `fsolve : (ℝ → ℝ) → ℝ → ℝ` receiving exactly the residual closure and
  the initial guess that the source passes to it.  `math.acos` /
  `math.asin` raising `ValueError` outside `[-1, 1]` (caught by the
  source's bare `except:` handlers, which make the function return
  `False`) is modelled by the `Option` monad: `none` is the
  `GeometryFault` result, `some profile` a successful solve.  The
  per-iteration samples `(theta2, theta3[theta2], theta4[theta2])` of
  the source's loop are collected by `seqOpt`, which fails iff some
  iteration fails, exactly as the source's early `return False` does
  (no partial result is returned either way).
-/

section ValidityChecker

variable {α : Type*} [LinearOrderedField α]

/-- Python's `min([l1, l2, l3, l4])`. -/
def min4 (l1 l2 l3 l4 : α) : α := min (min (min l1 l2) l3) l4

/-- Python's `max([l1, l2, l3, l4])`. -/
def max4 (l1 l2 l3 l4 : α) : α := max (max (max l1 l2) l3) l4

/-- Embedding of `check_valid` (src/functions.py, lines 10-62).
`links.index(x)` is `List.findIdx` (first occurrence); `del links[i]` is
`List.eraseIdx`.  The final `if sum(min_max) <= sum(links)` /
`elif sum(min_max) > sum(links)` pair is kept literally; falling through
both branches (Python would return `None`) is the `none` result. -/
def check_valid (l1 l2 l3 l4 : α) : Option Bool :=
  let links : List α := [l1, l2, l3, l4]
  let link_max := max4 l1 l2 l3 l4
  let link_min := min4 l1 l2 l3 l4
  let pos_max := links.findIdx (fun y => decide (y = link_max))
  let pos_min := links.findIdx (fun y => decide (y = link_min))
  let min_max : List α := [link_min, link_max]
  let links1 := links.eraseIdx pos_max
  let links2 :=
    if pos_max < pos_min then links1.eraseIdx (pos_min - 1)
    else links1.eraseIdx pos_min
  if min_max.sum ≤ links2.sum then some true
  else if links2.sum < min_max.sum then some false
  else none

lemma min4_le_first (l1 l2 l3 l4 : α) : min4 l1 l2 l3 l4 ≤ l1 :=
  le_trans (le_trans (min_le_left _ _) (min_le_left _ _)) (min_le_left _ _)

lemma min4_le_second (l1 l2 l3 l4 : α) : min4 l1 l2 l3 l4 ≤ l2 :=
  le_trans (le_trans (min_le_left _ _) (min_le_left _ _)) (min_le_right _ _)

lemma min4_le_third (l1 l2 l3 l4 : α) : min4 l1 l2 l3 l4 ≤ l3 :=
  le_trans (min_le_left _ _) (min_le_right _ _)

lemma min4_le_fourth (l1 l2 l3 l4 : α) : min4 l1 l2 l3 l4 ≤ l4 :=
  min_le_right _ _

lemma first_le_max4 (l1 l2 l3 l4 : α) : l1 ≤ max4 l1 l2 l3 l4 :=
  le_trans (le_trans (le_max_left _ _) (le_max_left _ _)) (le_max_left _ _)

lemma second_le_max4 (l1 l2 l3 l4 : α) : l2 ≤ max4 l1 l2 l3 l4 :=
  le_trans (le_trans (le_max_right _ _) (le_max_left _ _)) (le_max_left _ _)

lemma third_le_max4 (l1 l2 l3 l4 : α) : l3 ≤ max4 l1 l2 l3 l4 :=
  le_trans (le_max_right _ _) (le_max_left _ _)

lemma fourth_le_max4 (l1 l2 l3 l4 : α) : l4 ≤ max4 l1 l2 l3 l4 :=
  le_max_right _ _

lemma max4_choice (l1 l2 l3 l4 : α) :
    max4 l1 l2 l3 l4 = l1 ∨ max4 l1 l2 l3 l4 = l2 ∨
      max4 l1 l2 l3 l4 = l3 ∨ max4 l1 l2 l3 l4 = l4 := by
  unfold max4
  rcases max_choice (max (max l1 l2) l3) l4 with h | h
  · rw [h]
    rcases max_choice (max l1 l2) l3 with h2 | h2
    · rw [h2]
      rcases max_choice l1 l2 with h3 | h3
      · exact Or.inl h3
      · exact Or.inr (Or.inl h3)
    · exact Or.inr (Or.inr (Or.inl h2))
  · exact Or.inr (Or.inr (Or.inr h))

lemma min4_choice (l1 l2 l3 l4 : α) :
    min4 l1 l2 l3 l4 = l1 ∨ min4 l1 l2 l3 l4 = l2 ∨
      min4 l1 l2 l3 l4 = l3 ∨ min4 l1 l2 l3 l4 = l4 := by
  unfold min4
  rcases min_choice (min (min l1 l2) l3) l4 with h | h
  · rw [h]
    rcases min_choice (min l1 l2) l3 with h2 | h2
    · rw [h2]
      rcases min_choice l1 l2 with h3 | h3
      · exact Or.inl h3
      · exact Or.inr (Or.inl h3)
    · exact Or.inr (Or.inr (Or.inl h2))
  · exact Or.inr (Or.inr (Or.inr h))

/-- Removing the element at index `k` removes exactly the value stored
there from the sum. -/
lemma sum_eraseIdx_add (l : List α) : ∀ (k : ℕ) (x : α), l[k]? = some x →
    (l.eraseIdx k).sum + x = l.sum := by
  induction l with
  | nil => intro k x h; simp at h
  | cons a t ih =>
    intro k x h
    cases k with
    | zero =>
      simp only [List.getElem?_cons_zero, Option.some.injEq] at h
      simp [h, add_comm]
    | succ k =>
      simp only [List.getElem?_cons_succ] at h
      simp only [List.eraseIdx_cons_succ, List.sum_cons, add_assoc]
      rw [ih k x h]

/-- The final `if / elif` pair of `check_valid`, evaluated on a two-link
remainder whose sum is the total minus the extremes. -/
lemma grashof_if_eq (m M T : α) (s : α) (hs : s = T - M - m) :
    (if m + M ≤ s then some true
     else if s < m + M then some false else none)
      = some (decide (2 * (m + M) ≤ T)) := by
  subst hs
  rcases le_or_lt (m + M) (T - M - m) with h | h
  · rw [if_pos h]
    have hT : 2 * (m + M) ≤ T := by linarith
    simp [hT]
  · rw [if_neg (not_le.mpr h), if_pos h]
    have hT : ¬ 2 * (m + M) ≤ T := by intro hc; linarith
    simp [hT]

/-- The value `check_valid` computes: deleting one first-occurrence
maximum element and one first-occurrence minimum element (with the
positional index adjustment) always leaves two links whose sum is the
total minus the extremes, so the returned value is
`some (2 * (min + max) ≤ l1 + l2 + l3 + l4)` and the fall-through never
fires. -/
lemma check_valid_eq (l1 l2 l3 l4 : α) :
    check_valid l1 l2 l3 l4 =
      some (decide (2 * (min4 l1 l2 l3 l4 + max4 l1 l2 l3 l4) ≤ l1 + l2 + l3 + l4)) := by
  have hm1 := min4_le_first l1 l2 l3 l4
  have hm2 := min4_le_second l1 l2 l3 l4
  have hm3 := min4_le_third l1 l2 l3 l4
  have hm4 := min4_le_fourth l1 l2 l3 l4
  have hM1 := first_le_max4 l1 l2 l3 l4
  have hM2 := second_le_max4 l1 l2 l3 l4
  have hM3 := third_le_max4 l1 l2 l3 l4
  have hM4 := fourth_le_max4 l1 l2 l3 l4
  simp only [check_valid]
  set M := max4 l1 l2 l3 l4 with hMdef
  set m := min4 l1 l2 l3 l4 with hmdef
  set i := List.findIdx (fun y => decide (y = M)) [l1, l2, l3, l4] with hidef
  set j := List.findIdx (fun y => decide (y = m)) [l1, l2, l3, l4] with hjdef
  have hM : M = l1 ∨ M = l2 ∨ M = l3 ∨ M = l4 := by
    rw [hMdef]; exact max4_choice l1 l2 l3 l4
  have hm' : m = l1 ∨ m = l2 ∨ m = l3 ∨ m = l4 := by
    rw [hmdef]; exact min4_choice l1 l2 l3 l4
  have hMmem : M ∈ [l1, l2, l3, l4] := by rcases hM with h | h | h | h <;> simp [h]
  have hmmem : m ∈ [l1, l2, l3, l4] := by rcases hm' with h | h | h | h <;> simp [h]
  have hi4 : i < ([l1, l2, l3, l4] : List α).length := by
    rw [hidef]
    exact List.findIdx_lt_length.mpr ⟨M, hMmem, by simp⟩
  have hj4 : j < ([l1, l2, l3, l4] : List α).length := by
    rw [hjdef]
    exact List.findIdx_lt_length.mpr ⟨m, hmmem, by simp⟩
  have hiM : ([l1, l2, l3, l4] : List α)[i]? = some M := by
    rw [List.getElem?_eq_getElem hi4]
    refine congrArg some ?_
    have := @List.findIdx_getElem α (fun y => decide (y = M)) [l1, l2, l3, l4] hi4
    exact of_decide_eq_true this
  have hjm : ([l1, l2, l3, l4] : List α)[j]? = some m := by
    rw [List.getElem?_eq_getElem hj4]
    refine congrArg some ?_
    have := @List.findIdx_getElem α (fun y => decide (y = m)) [l1, l2, l3, l4] hj4
    exact of_decide_eq_true this
  have hsum : ([l1, l2, l3, l4] : List α).sum = l1 + l2 + l3 + l4 := by
    simp [add_assoc]
  have h1sum : (([l1, l2, l3, l4] : List α).eraseIdx i).sum = l1 + l2 + l3 + l4 - M := by
    have := sum_eraseIdx_add [l1, l2, l3, l4] i M hiM
    rw [hsum] at this
    linarith
  simp only [List.sum_cons, List.sum_nil, add_zero]
  rcases lt_trichotomy i j with hij | hij | hij
  · -- the maximum is removed first, so the minimum's index shifts down
    rw [if_pos hij]
    have hj1 : ((([l1, l2, l3, l4] : List α).eraseIdx i)[j - 1]?) = some m := by
      rw [List.getElem?_eraseIdx_of_ge _ _ _ (by omega)]
      rw [(by omega : j - 1 + 1 = j)]
      exact hjm
    have hx : ((([l1, l2, l3, l4] : List α).eraseIdx i).eraseIdx (j - 1)).sum
        = (l1 + l2 + l3 + l4) - M - m := by
      have := sum_eraseIdx_add (([l1, l2, l3, l4] : List α).eraseIdx i) (j - 1) m hj1
      rw [h1sum] at this
      linarith
    rw [hx]
    exact grashof_if_eq m M (l1 + l2 + l3 + l4) _ rfl
  · -- min and max found at the same position: all four lengths are equal
    have hMm : M = m := by
      rw [hij] at hiM
      rw [hiM] at hjm
      exact (Option.some.injEq _ _).mp hjm
    have q1 : l1 = m := le_antisymm (hMm ▸ hM1) hm1
    have q2 : l2 = m := le_antisymm (hMm ▸ hM2) hm2
    have q3 : l3 = m := le_antisymm (hMm ▸ hM3) hm3
    have q4 : l4 = m := le_antisymm (hMm ▸ hM4) hm4
    have hi0 : i = 0 := by
      rw [hidef, List.findIdx_cons]
      have hd : decide (l1 = M) = true := by rw [q1, hMm]; simp
      rw [hd]
      rfl
    have hj0 : j = 0 := by
      rw [hjdef, List.findIdx_cons]
      have hd : decide (l1 = m) = true := by rw [q1]; simp
      rw [hd]
      rfl
    rw [if_neg (by omega : ¬ i < j), hi0, hj0]
    have hx : ((([l1, l2, l3, l4] : List α).eraseIdx 0).eraseIdx 0).sum
        = (l1 + l2 + l3 + l4) - M - m := by
      simp only [List.eraseIdx_cons_zero, List.sum_cons, List.sum_nil, add_zero]
      rw [q1, q2, q3, q4, hMm]
      ring
    rw [hx]
    exact grashof_if_eq m M (l1 + l2 + l3 + l4) _ rfl
  · -- the minimum occurs before the maximum: its index is unshifted
    rw [if_neg (by omega : ¬ i < j)]
    have hj1 : ((([l1, l2, l3, l4] : List α).eraseIdx i)[j]?) = some m := by
      rw [List.getElem?_eraseIdx_of_lt _ _ _ hij]
      exact hjm
    have hx : ((([l1, l2, l3, l4] : List α).eraseIdx i).eraseIdx j).sum
        = (l1 + l2 + l3 + l4) - M - m := by
      have := sum_eraseIdx_add (([l1, l2, l3, l4] : List α).eraseIdx i) j m hj1
      rw [h1sum] at this
      linarith
    rw [hx]
    exact grashof_if_eq m M (l1 + l2 + l3 + l4) _ rfl

lemma min4_le_of_mem (a b c d x : α) (h : x ∈ ({a, b, c, d} : Multiset α)) :
    min4 a b c d ≤ x := by
  have hx : x = a ∨ x = b ∨ x = c ∨ x = d := by simpa using h
  rcases hx with h1 | h1 | h1 | h1 <;> rw [h1]
  · exact min4_le_first a b c d
  · exact min4_le_second a b c d
  · exact min4_le_third a b c d
  · exact min4_le_fourth a b c d

lemma le_max4_of_mem (a b c d x : α) (h : x ∈ ({a, b, c, d} : Multiset α)) :
    x ≤ max4 a b c d := by
  have hx : x = a ∨ x = b ∨ x = c ∨ x = d := by simpa using h
  rcases hx with h1 | h1 | h1 | h1 <;> rw [h1]
  · exact first_le_max4 a b c d
  · exact second_le_max4 a b c d
  · exact third_le_max4 a b c d
  · exact fourth_le_max4 a b c d

lemma min4_mem (a b c d : α) : min4 a b c d ∈ ({a, b, c, d} : Multiset α) := by
  rcases min4_choice a b c d with h | h | h | h <;> simp [h]

lemma max4_mem (a b c d : α) : max4 a b c d ∈ ({a, b, c, d} : Multiset α) := by
  rcases max4_choice a b c d with h | h | h | h <;> simp [h]

lemma min4_eq_of_multiset_eq (a b c d e f g k : α)
    (h : ({e, f, g, k} : Multiset α) = {a, b, c, d}) :
    min4 e f g k = min4 a b c d := by
  apply le_antisymm
  · exact min4_le_of_mem e f g k _ (by rw [h]; exact min4_mem a b c d)
  · exact min4_le_of_mem a b c d _ (by rw [← h]; exact min4_mem e f g k)

lemma max4_eq_of_multiset_eq (a b c d e f g k : α)
    (h : ({e, f, g, k} : Multiset α) = {a, b, c, d}) :
    max4 e f g k = max4 a b c d := by
  apply le_antisymm
  · exact le_max4_of_mem a b c d _ (by rw [← h]; exact max4_mem e f g k)
  · exact le_max4_of_mem e f g k _ (by rw [h]; exact max4_mem a b c d)

lemma sum4_eq_of_multiset_eq (a b c d e f g k : α)
    (h : ({e, f, g, k} : Multiset α) = {a, b, c, d}) :
    e + f + g + k = a + b + c + d := by
  have := congrArg Multiset.sum h
  simp only [Multiset.insert_eq_cons, Multiset.sum_cons, Multiset.sum_singleton] at this
  linarith

end ValidityChecker

/-- Claim C1: for strictly positive lengths, `check_valid` returns `True`
iff the minimum plus the maximum is at most the sum of the remaining two
lengths, equivalently `2 * (min + max) ≤ l1 + l2 + l3 + l4`; in
particular it returns `True` when all four lengths are equal,
notwithstanding the positional first-occurrence deletions. -/
theorem check_valid_iff_grashof (l1 l2 l3 l4 : ℝ)
    (h1 : 0 < l1) (h2 : 0 < l2) (h3 : 0 < l3) (h4 : 0 < l4) :
    (check_valid l1 l2 l3 l4 = some true ↔
      2 * (min4 l1 l2 l3 l4 + max4 l1 l2 l3 l4) ≤ l1 + l2 + l3 + l4) ∧
    (l1 = l2 → l2 = l3 → l3 = l4 → check_valid l1 l2 l3 l4 = some true) := by
  constructor
  · rw [check_valid_eq]
    simp
  · intro e1 e2 e3
    rw [check_valid_eq]
    subst e1
    subst e2
    subst e3
    simp only [min4, max4, min_self, max_self]
    simp only [Option.some.injEq, decide_eq_true_eq]
    linarith

/-- Witness for C1 at the spec's example `l1=2.7, l2=1, l3=2.4, l4=3`. -/
theorem check_valid_iff_grashof_witness :
    (0:ℝ) < 27/10 ∧ (0:ℝ) < 1 ∧ (0:ℝ) < 24/10 ∧ (0:ℝ) < 3 ∧
    (check_valid (27/10 : ℝ) 1 (24/10) 3 = some true ↔
      2 * (min4 (27/10 : ℝ) 1 (24/10) 3 + max4 (27/10 : ℝ) 1 (24/10) 3)
        ≤ 27/10 + 1 + 24/10 + 3) :=
  ⟨by norm_num, by norm_num, by norm_num, by norm_num,
    (check_valid_iff_grashof (27/10) 1 (24/10) 3
      (by norm_num) (by norm_num) (by norm_num) (by norm_num)).1⟩

/-- Claim C8: `check_valid` depends only on the multiset of the four
lengths: permuting the inputs (ties for the extremes included, removal
being by first-occurrence position) never changes the result. -/
theorem check_valid_multiset_invariant (l1 l2 l3 l4 k1 k2 k3 k4 : ℝ)
    (h1 : 0 < l1) (h2 : 0 < l2) (h3 : 0 < l3) (h4 : 0 < l4)
    (h5 : 0 < k1) (h6 : 0 < k2) (h7 : 0 < k3) (h8 : 0 < k4)
    (hperm : ({k1, k2, k3, k4} : Multiset ℝ) = {l1, l2, l3, l4}) :
    check_valid k1 k2 k3 k4 = check_valid l1 l2 l3 l4 := by
  rw [check_valid_eq, check_valid_eq,
    min4_eq_of_multiset_eq l1 l2 l3 l4 k1 k2 k3 k4 hperm,
    max4_eq_of_multiset_eq l1 l2 l3 l4 k1 k2 k3 k4 hperm,
    sum4_eq_of_multiset_eq l1 l2 l3 l4 k1 k2 k3 k4 hperm]

/-- Witness for C8: swapping the first two of `(1, 2, 3, 3)` (a tie for
the maximum) leaves the result unchanged. -/
theorem check_valid_multiset_invariant_witness :
    ({(2:ℝ), 1, 3, 3} : Multiset ℝ) = {1, 2, 3, 3} ∧
    check_valid (2:ℝ) 1 3 3 = check_valid (1:ℝ) 2 3 3 := by
  have hq : ({(2:ℝ), 1, 3, 3} : Multiset ℝ) = {1, 2, 3, 3} := by
    simp only [Multiset.insert_eq_cons]
    rw [Multiset.cons_swap]
  exact ⟨hq, check_valid_multiset_invariant 1 2 3 3 2 1 3 3
    (by norm_num) (by norm_num) (by norm_num) (by norm_num)
    (by norm_num) (by norm_num) (by norm_num) (by norm_num) hq⟩

/-- Claim C10: for strictly positive real lengths the final `if / elif`
pair of `check_valid` is exhaustive: the function always returns
`some true` or `some false`, never the `none` fall-through. -/
theorem check_valid_never_none (l1 l2 l3 l4 : ℝ)
    (h1 : 0 < l1) (h2 : 0 < l2) (h3 : 0 < l3) (h4 : 0 < l4) :
    check_valid l1 l2 l3 l4 ≠ none := by
  rw [check_valid_eq]
  simp

/-- Witness for C10 at `(1, 2, 3, 4)`. -/
theorem check_valid_never_none_witness :
    (0:ℝ) < 1 ∧ (0:ℝ) < 2 ∧ (0:ℝ) < 3 ∧ (0:ℝ) < 4 ∧
    check_valid (1:ℝ) 2 3 4 ≠ none :=
  ⟨by norm_num, by norm_num, by norm_num, by norm_num,
    check_valid_never_none 1 2 3 4 (by norm_num) (by norm_num) (by norm_num) (by norm_num)⟩

section AngleSolver

/-- Python's `math.radians`. -/
noncomputable def radians (x : ℝ) : ℝ := x * (Real.pi / 180)

/-- Python's `math.degrees`. -/
noncomputable def degrees (x : ℝ) : ℝ := x * (180 / Real.pi)

/-- Cosine of an angle given in degrees: `math.cos(math.radians(x))`, the
combination used throughout `calculate_linkage`. -/
noncomputable def cosd (x : ℝ) : ℝ := Real.cos (radians x)

/-- Sine of an angle given in degrees: `math.sin(math.radians(x))`. -/
noncomputable def sind (x : ℝ) : ℝ := Real.sin (radians x)

/-- Step-1 lower bound `theta4_min` (src/functions.py, line 99).  It is
computed inside the `try` block and never used afterwards. -/
noncomputable def theta4_min (l1 l2 l3 l4 : ℝ) : ℝ :=
  degrees (Real.arccos (((l2 - l3)^2 - l1^2 - l4^2) / (2*l1*l4)))

/-- Step-1 upper bound `theta4_max` (src/functions.py, line 100), used as
the initial guess of every per-angle root-find. -/
noncomputable def theta4_max (l1 l2 l3 l4 : ℝ) : ℝ :=
  degrees (Real.arccos (((l2 + l3)^2 - l1^2 - l4^2) / (2*l1*l4)))

/-- The residual closure `freudenstein` built in each loop iteration
(src/functions.py, lines 119-120), with the dimensionless parameters
`L1 = l1/l4`, `L2 = l1/l2`, `L3 = (l1**2 + l2**2 - l3**2 + l4**2)/2/l2/l4`
of lines 93-95. -/
noncomputable def freudenstein (l1 l2 l3 l4 θ2 : ℝ) : ℝ → ℝ :=
  let L1 := l1/l4
  let L2 := l1/l2
  let L3 := (l1^2 + l2^2 - l3^2 + l4^2)/2/l2/l4
  fun t4 => L3 + L2 * cosd t4 - L1 * cosd θ2 - cosd (θ2 - t4)

/-- `theta4_sol = scipy.optimize.fsolve(freudenstein, theta4_max)`
(src/functions.py, line 122).  `fsolve` is external library code,
modelled as an abstract root-finder receiving exactly the residual and
initial guess the source passes. -/
noncomputable def theta4_at (fsolve : (ℝ → ℝ) → ℝ → ℝ) (l1 l2 l3 l4 : ℝ) (θ2 : ℕ) : ℝ :=
  fsolve (freudenstein l1 l2 l3 l4 (θ2 : ℝ)) (theta4_max l1 l2 l3 l4)

/-- The argument handed to `math.asin` in lines 130/133. -/
noncomputable def asin_arg (l2 l3 l4 θ2 t4 : ℝ) : ℝ :=
  (l4 * sind t4 - l2 * sind θ2) / l3

/-- The `try` block of lines 127-133 computing `theta3` for one driving
angle: the branch condition selects the coupler configuration, then
`math.asin` is applied; its `ValueError` outside `[-1, 1]` (caught by
the bare `except:`) is the `none` result.  Note that `math.asin` returns
radians, which the source mixes with the degree constant `180`. -/
noncomputable def theta3_step (l1 l2 l3 l4 θ2 t4 : ℝ) : Option ℝ :=
  if l2 * cosd (360 - θ2) > l1 - l4 * cosd (180 - t4) then
    if asin_arg l2 l3 l4 θ2 t4 < -1 ∨ 1 < asin_arg l2 l3 l4 θ2 t4 then none
    else some (180 - Real.arcsin (asin_arg l2 l3 l4 θ2 t4))
  else
    if asin_arg l2 l3 l4 θ2 t4 < -1 ∨ 1 < asin_arg l2 l3 l4 θ2 t4 then none
    else some (Real.arcsin (asin_arg l2 l3 l4 θ2 t4))

/-- One iteration of the `for theta2 in range(0, 361)` loop
(src/functions.py, lines 116-133): solve for `theta4`, then derive
`theta3`; the sample is `(theta2, theta3[theta2], theta4[theta2])`. -/
noncomputable def linkage_step (fsolve : (ℝ → ℝ) → ℝ → ℝ) (l1 l2 l3 l4 : ℝ) (θ2 : ℕ) :
    Option (ℝ × ℝ × ℝ) :=
  let t4 := theta4_at fsolve l1 l2 l3 l4 θ2
  (theta3_step l1 l2 l3 l4 (θ2 : ℝ) t4).map (fun t3 => ((θ2 : ℝ), t3, t4))

/-- All-or-nothing collection of the loop's samples: `none` iff some
iteration fails, mirroring the early `return False`. -/
def seqOpt {β : Type*} : List (Option β) → Option (List β)
  | [] => some []
  | o :: rest => o.bind fun x => (seqOpt rest).map fun l => x :: l

/-- Embedding of `calculate_linkage` (src/functions.py, lines 66-211),
restricted to the kinematic core.  The Step-1 guard is the `try/except`
of lines 98-109 (`math.acos` raises `ValueError` iff its argument is
outside `[-1, 1]`, making the function return `False`, here `none`).
The animation code of lines 145-209 only reads the computed samples; the
core's output is abstracted as the list of 361 `(θ2, θ3, θ4)` samples. -/
noncomputable def calculate_linkage (fsolve : (ℝ → ℝ) → ℝ → ℝ) (l1 l2 l3 l4 : ℝ) :
    Option (List (ℝ × ℝ × ℝ)) :=
  let a1 := ((l2 - l3)^2 - l1^2 - l4^2) / (2*l1*l4)
  let a2 := ((l2 + l3)^2 - l1^2 - l4^2) / (2*l1*l4)
  if a1 < -1 ∨ 1 < a1 ∨ a2 < -1 ∨ 1 < a2 then none
  else seqOpt ((List.range 361).map (linkage_step fsolve l1 l2 l3 l4))

lemma seqOpt_map_eq_some {β : Type*} (f : ℕ → Option β) (g : ℕ → β) :
    ∀ (l : List ℕ), (∀ n ∈ l, f n = some (g n)) →
      seqOpt (l.map f) = some (l.map g) := by
  intro l
  induction l with
  | nil => intro _h; rfl
  | cons a t ih =>
    intro h
    simp only [List.map_cons, seqOpt]
    rw [h a (by simp), ih (fun n hn => h n (by simp [hn]))]
    rfl

lemma seqOpt_none_of_mem {β : Type*} (f : ℕ → Option β) :
    ∀ (l : List ℕ) (n : ℕ), n ∈ l → f n = none → seqOpt (l.map f) = none := by
  intro l
  induction l with
  | nil => intro n hn; simp at hn
  | cons a t ih =>
    intro n hn hfn
    rcases List.mem_cons.mp hn with rfl | hmem
    · simp only [List.map_cons, seqOpt, hfn, Option.none_bind]
    · simp only [List.map_cons, seqOpt, ih n hmem hfn]
      rcases f a with _ | x <;> rfl

lemma seqOpt_length {β : Type*} :
    ∀ (l : List (Option β)) (out : List β), seqOpt l = some out → out.length = l.length := by
  intro l
  induction l with
  | nil =>
    intro out h
    simp only [seqOpt, Option.some.injEq] at h
    rw [← h]
    rfl
  | cons o rest ih =>
    intro out h
    simp only [seqOpt] at h
    rcases ho : o with _ | x <;> rw [ho] at h
    · exact absurd h (by simp)
    · rcases hrest : seqOpt rest with _ | tl <;> rw [hrest] at h
      · exact absurd h (by simp)
      · simp only [Option.some_bind, Option.map_some', Option.some.injEq] at h
        rw [← h]
        simp [ih tl hrest]

lemma seqOpt_getElem? {β : Type*} (f : ℕ → Option β) :
    ∀ (l : List ℕ) (out : List β), seqOpt (l.map f) = some out →
      ∀ i : ℕ, out[i]? = (l[i]?).bind f := by
  intro l
  induction l with
  | nil =>
    intro out h i
    simp only [List.map_nil, seqOpt, Option.some.injEq] at h
    rw [← h]
    simp
  | cons a t ih =>
    intro out h i
    simp only [List.map_cons, seqOpt] at h
    rcases ha : f a with _ | x <;> rw [ha] at h
    · exact absurd h (by simp)
    · rcases ht : seqOpt (t.map f) with _ | tl <;> rw [ht] at h
      · exact absurd h (by simp)
      · simp only [Option.some_bind, Option.map_some', Option.some.injEq] at h
        rw [← h]
        cases i with
        | zero => simp [ha]
        | succ i => simpa using ih tl ht i

end AngleSolver

section SolverHelpers

lemma sind_le_one (x : ℝ) : sind x ≤ 1 := by
  unfold sind
  exact Real.sin_le_one _

lemma neg_one_le_sind (x : ℝ) : -1 ≤ sind x := by
  unfold sind
  exact Real.neg_one_le_sin _

lemma cosd_le_one (x : ℝ) : cosd x ≤ 1 := by
  unfold cosd
  exact Real.cos_le_one _

lemma neg_one_le_cosd (x : ℝ) : -1 ≤ cosd x := by
  unfold cosd
  exact Real.neg_one_le_cos _

lemma radians_90 : radians 90 = Real.pi / 2 := by
  unfold radians
  ring

lemma sind_90 : sind 90 = 1 := by
  unfold sind
  rw [radians_90, Real.sin_pi_div_two]

lemma sind_0 : sind 0 = 0 := by
  unfold sind radians
  rw [zero_mul, Real.sin_zero]

lemma radians_360 : radians 360 = 2 * Real.pi := by
  unfold radians
  ring

lemma sind_360 : sind 360 = 0 := by
  unfold sind
  rw [radians_360, Real.sin_two_pi]

lemma cosd_360 : cosd 360 = 1 := by
  unfold cosd
  rw [radians_360, Real.cos_two_pi]

lemma cosd_0 : cosd 0 = 1 := by
  unfold cosd radians
  rw [zero_mul, Real.cos_zero]

lemma cosd_sub_eq_of_add_360 (t : ℝ) : cosd (360 - t) = cosd (0 - t) := by
  unfold cosd
  have h1 : radians (360 - t) = 2 * Real.pi - radians t := by
    unfold radians
    ring
  have h2 : radians (0 - t) = -radians t := by
    unfold radians
    ring
  rw [h1, h2, Real.cos_neg]
  rw [Real.cos_sub, Real.cos_two_pi, Real.sin_two_pi]
  ring

/-- The profile produced on the lengths `(2, 1, 2, 1)` by a mock
root-finder that returns the constant `c`: every iteration stores
`theta4 = c` and `theta3 = arcsin((sin(radians c) - sin(radians θ2))/2)`
(the branch condition is false for every `θ2`). -/
noncomputable def profileC (c : ℝ) : List (ℝ × ℝ × ℝ) :=
  (List.range 361).map fun n : ℕ => ((n : ℝ), Real.arcsin ((sind c - sind (n : ℝ)) / 2), c)

set_option maxRecDepth 8000 in
/-- On `(2, 1, 2, 1)` — a Grashof-valid set whose `acos` arguments are
exactly `-1` and `1` — the solve succeeds for every value `c` the
root-finder returns, with no constraint relating `c` to the Step-1
bounds. -/
lemma calculate_linkage_const (c : ℝ) :
    calculate_linkage (fun _f _x => c) 2 1 2 1 = some (profileC c) := by
  have harg : ∀ n : ℕ, asin_arg 1 2 1 (n : ℝ) c = (sind c - sind (n : ℝ)) / 2 := by
    intro n
    unfold asin_arg
    ring
  have hstep : ∀ n ∈ List.range 361,
      linkage_step (fun _f _x => c) 2 1 2 1 n
        = some ((n : ℝ), Real.arcsin ((sind c - sind (n : ℝ)) / 2), c) := by
    intro n _hn
    have ht4 : theta4_at (fun _f _x => c) 2 1 2 1 n = c := rfl
    simp only [linkage_step, ht4, theta3_step]
    rw [if_neg ?hbr]
    case hbr =>
      have h1 : cosd (360 - (n : ℝ)) ≤ 1 := cosd_le_one _
      have h2 : cosd (180 - c) ≤ 1 := cosd_le_one _
      push_neg
      linarith
    rw [if_neg ?hdom]
    case hdom =>
      rw [harg n]
      have hs1 : sind c ≤ 1 := sind_le_one _
      have hs2 : -1 ≤ sind c := neg_one_le_sind _
      have hs3 : sind (n : ℝ) ≤ 1 := sind_le_one _
      have hs4 : -1 ≤ sind (n : ℝ) := neg_one_le_sind _
      push_neg
      constructor <;> linarith
    rw [harg n]
    simp only [Option.map_some']
  unfold calculate_linkage
  rw [if_neg (by norm_num)]
  unfold profileC
  exact seqOpt_map_eq_some _ _ (List.range 361) hstep

end SolverHelpers

/-- Claim C2: if either Step-1 arccos argument lies outside `[-1, 1]`,
the solver fails with the GeometryFault result (`none`): `math.acos`
raises `ValueError`, the `except:` handler returns `False` — no crash,
no NaN propagation, no partial MotionProfile. -/
theorem step1_out_of_domain_faults (fsolve : (ℝ → ℝ) → ℝ → ℝ) (l1 l2 l3 l4 : ℝ)
    (h1 : 0 < l1) (h2 : 0 < l2) (h3 : 0 < l3) (h4 : 0 < l4)
    (hout : ((l2 - l3)^2 - l1^2 - l4^2) / (2*l1*l4) ∉ Set.Icc (-1 : ℝ) 1 ∨
            ((l2 + l3)^2 - l1^2 - l4^2) / (2*l1*l4) ∉ Set.Icc (-1 : ℝ) 1) :
    calculate_linkage fsolve l1 l2 l3 l4 = none := by
  unfold calculate_linkage
  rw [if_pos]
  rcases hout with h | h
  · rw [Set.mem_Icc] at h
    rcases not_and_or.mp h with h2 | h2
    · exact Or.inl (not_le.mp h2)
    · exact Or.inr (Or.inl (not_le.mp h2))
  · rw [Set.mem_Icc] at h
    rcases not_and_or.mp h with h2 | h2
    · exact Or.inr (Or.inr (Or.inl (not_le.mp h2)))
    · exact Or.inr (Or.inr (Or.inr (not_le.mp h2)))

/-- Witness for C2 at the spec's example shape `(10, 1, 1, 1)`: the
second arccos argument is `-97/20 < -1`. -/
theorem step1_out_of_domain_faults_witness :
    (((1:ℝ) + 1)^2 - 10^2 - 1^2) / (2*10*1) ∉ Set.Icc (-1 : ℝ) 1 ∧
    calculate_linkage (fun f x => x) 10 1 1 1 = none :=
  ⟨by norm_num [Set.mem_Icc],
   step1_out_of_domain_faults (fun f x => x) 10 1 1 1
     (by norm_num) (by norm_num) (by norm_num) (by norm_num)
     (Or.inr (by norm_num [Set.mem_Icc]))⟩

/-- Claim C5: if for some sampled driving angle the arcsin argument
leaves `[-1, 1]`, the whole solve is aborted with the GeometryFault
result (`none`): no partial MotionProfile is ever exposed,
whichever branch of the θ3 computation was selected. -/
theorem asin_out_of_domain_aborts (fsolve : (ℝ → ℝ) → ℝ → ℝ) (l1 l2 l3 l4 : ℝ)
    (h1 : 0 < l1) (h2 : 0 < l2) (h3 : 0 < l3) (h4 : 0 < l4)
    (n : ℕ) (hn : n ≤ 360)
    (hdom : asin_arg l2 l3 l4 (n : ℝ) (theta4_at fsolve l1 l2 l3 l4 n) < -1 ∨
            1 < asin_arg l2 l3 l4 (n : ℝ) (theta4_at fsolve l1 l2 l3 l4 n)) :
    calculate_linkage fsolve l1 l2 l3 l4 = none := by
  simp only [calculate_linkage]
  split_ifs with hg
  · rfl
  · have hth : theta3_step l1 l2 l3 l4 (n : ℝ) (theta4_at fsolve l1 l2 l3 l4 n) = none := by
      unfold theta3_step
      rw [if_pos hdom, if_pos hdom, ite_self]
    apply seqOpt_none_of_mem _ _ n (List.mem_range.mpr (by omega))
    simp only [linkage_step, hth, Option.map_none']

/-- Witness for C5: mock root-finder returning `90`, lengths
`(2, 1, 1/2, 1)`: at θ2 = 0 the arcsin argument is `2 > 1` and the
whole solve returns `none`. -/
theorem asin_out_of_domain_aborts_witness :
    1 < asin_arg 1 (1/2) 1 ((0:ℕ) : ℝ) (theta4_at (fun _f _x => (90:ℝ)) 2 1 (1/2) 1 0) ∧
    calculate_linkage (fun _f _x => (90:ℝ)) 2 1 (1/2) 1 = none := by
  have harg : 1 < asin_arg 1 (1/2) 1 ((0:ℕ) : ℝ) (theta4_at (fun _f _x => (90:ℝ)) 2 1 (1/2) 1 0) := by
    have ht4 : theta4_at (fun _f _x => (90:ℝ)) 2 1 (1/2) 1 0 = 90 := rfl
    rw [ht4]
    unfold asin_arg
    rw [Nat.cast_zero, sind_0, sind_90]
    norm_num
  exact ⟨harg,
    asin_out_of_domain_aborts (fun _f _x => (90:ℝ)) 2 1 (1/2) 1
      (by norm_num) (by norm_num) (by norm_num) (by norm_num) 0 (by norm_num)
      (Or.inr harg)⟩

lemma seqOpt_isSome_of_forall {β : Type*} (f : ℕ → Option β) :
    ∀ (l : List ℕ), (∀ n ∈ l, (f n).isSome = true) →
      (seqOpt (l.map f)).isSome = true := by
  intro l
  induction l with
  | nil => intro _h; rfl
  | cons a t ih =>
    intro h
    simp only [List.map_cons, seqOpt]
    rcases ha : f a with _ | x
    · exact absurd (ha ▸ h a (by simp)) (by simp)
    · have := ih (fun n hn => h n (by simp [hn]))
      rcases ht : seqOpt (t.map f) with _ | tl
      · rw [ht] at this
        exact absurd this (by simp)
      · simp

/-- Claim C6 amended: the solver never checks the root-finder's result
against the Step-1 feasibility bounds, nor its convergence: whenever the
Step-1 arccos arguments are in `[-1, 1]` and every per-angle arcsin
argument is in `[-1, 1]`, the solve succeeds — with no hypothesis at all
relating the solved `theta4_at` values to `[theta4_min, theta4_max]`
(`theta4_min` is computed by the source and never used; `fsolve` is
called without inspecting convergence). -/
theorem solver_result_never_bound_checked (fsolve : (ℝ → ℝ) → ℝ → ℝ) (l1 l2 l3 l4 : ℝ)
    (h1 : 0 < l1) (h2 : 0 < l2) (h3 : 0 < l3) (h4 : 0 < l4)
    (hg1 : -1 ≤ ((l2 - l3)^2 - l1^2 - l4^2) / (2*l1*l4))
    (hg2 : ((l2 - l3)^2 - l1^2 - l4^2) / (2*l1*l4) ≤ 1)
    (hg3 : -1 ≤ ((l2 + l3)^2 - l1^2 - l4^2) / (2*l1*l4))
    (hg4 : ((l2 + l3)^2 - l1^2 - l4^2) / (2*l1*l4) ≤ 1)
    (hdom : ∀ n : ℕ, n ≤ 360 →
      -1 ≤ asin_arg l2 l3 l4 (n : ℝ) (theta4_at fsolve l1 l2 l3 l4 n) ∧
      asin_arg l2 l3 l4 (n : ℝ) (theta4_at fsolve l1 l2 l3 l4 n) ≤ 1) :
    (calculate_linkage fsolve l1 l2 l3 l4).isSome = true := by
  unfold calculate_linkage
  rw [if_neg (by push_neg; exact ⟨hg1, hg2, hg3, hg4⟩)]
  apply seqOpt_isSome_of_forall
  intro n hn
  have hd := hdom n (by simpa [List.mem_range] using Nat.lt_succ_iff.mp (List.mem_range.mp hn))
  have hth : (theta3_step l1 l2 l3 l4 (n : ℝ) (theta4_at fsolve l1 l2 l3 l4 n)).isSome = true := by
    unfold theta3_step
    split_ifs with hb hdm hdm
    · rcases hdm with hx | hx
      · linarith [hd.1]
      · linarith [hd.2]
    · rfl
    · rcases hdm with hx | hx
      · linarith [hd.1]
      · linarith [hd.2]
    · rfl
  simp only [linkage_step]
  rcases hopt : theta3_step l1 l2 l3 l4 (n : ℝ) (theta4_at fsolve l1 l2 l3 l4 n) with _ | t3
  · rw [hopt] at hth
    exact absurd hth (by simp)
  · simp

/-- Witness for the amended C6: root-finder stuck at the constant `450`,
outside the Step-1 bounds `[0, 180]` of `(2, 1, 2, 1)`, yet the solve
succeeds. -/
theorem solver_result_never_bound_checked_witness :
    (calculate_linkage (fun _f _x => (450:ℝ)) 2 1 2 1).isSome = true :=
  solver_result_never_bound_checked (fun _f _x => (450:ℝ)) 2 1 2 1
    (by norm_num) (by norm_num) (by norm_num) (by norm_num)
    (by norm_num) (by norm_num) (by norm_num) (by norm_num)
    (by
      intro n _hn
      have ht4 : theta4_at (fun _f _x => (450:ℝ)) 2 1 2 1 n = 450 := rfl
      rw [ht4]
      unfold asin_arg
      have hs1 : sind 450 ≤ 1 := sind_le_one _
      have hs2 : -1 ≤ sind 450 := neg_one_le_sind _
      have hs3 : sind (n : ℝ) ≤ 1 := sind_le_one _
      have hs4 : -1 ≤ sind (n : ℝ) := neg_one_le_sind _
      constructor <;> [nlinarith; nlinarith])

/-- Counterexample to claim C6 as stated: with a root-finder returning
the constant `450` — outside the Step-1 feasible range, which for
`(2, 1, 2, 1)` has `theta4_min = 180` and `theta4_max = 0` — the solver
does not treat the out-of-bound result as a GeometryFault: it returns
the full 361-sample profile (every sample carrying `theta4 = 450`)
instead of `none`. -/
theorem unchecked_bounds_counterexample :
    calculate_linkage (fun _f _x => (450:ℝ)) 2 1 2 1 = some (profileC 450) ∧
    theta4_at (fun _f _x => (450:ℝ)) 2 1 2 1 0 = 450 ∧
    theta4_min 2 1 2 1 = 180 ∧
    theta4_max 2 1 2 1 = 0 ∧
    (450:ℝ) ∉ Set.Icc (0:ℝ) 180 ∧ (450:ℝ) ∉ Set.Icc (180:ℝ) 0 ∧
    calculate_linkage (fun _f _x => (450:ℝ)) 2 1 2 1 ≠ none := by
  refine ⟨calculate_linkage_const 450, rfl, ?_, ?_,
    by norm_num [Set.mem_Icc], by norm_num [Set.mem_Icc], ?_⟩
  · unfold theta4_min
    have hv : (((1:ℝ) - 2)^2 - 2^2 - 1^2) / (2*2*1) = -1 := by norm_num
    rw [hv, Real.arccos_neg_one]
    unfold degrees
    field_simp
  · unfold theta4_max
    have hv : (((1:ℝ) + 2)^2 - 2^2 - 1^2) / (2*2*1) = 1 := by norm_num
    rw [hv, Real.arccos_one]
    unfold degrees
    ring
  · rw [calculate_linkage_const 450]
    simp

/-- A successful solve has 361 entries and entry `n` is the `n`-th loop
iteration's sample. -/
lemma calculate_linkage_some_getElem (fsolve : (ℝ → ℝ) → ℝ → ℝ) (l1 l2 l3 l4 : ℝ)
    (p : List (ℝ × ℝ × ℝ)) (hp : calculate_linkage fsolve l1 l2 l3 l4 = some p) :
    p.length = 361 ∧
    ∀ n : ℕ, n < 361 → p[n]? = linkage_step fsolve l1 l2 l3 l4 n := by
  simp only [calculate_linkage] at hp
  split_ifs at hp with hg
  constructor
  · have := seqOpt_length _ p hp
    simpa using this
  · intro n hn
    have := seqOpt_getElem? (linkage_step fsolve l1 l2 l3 l4) (List.range 361) p hp n
    rw [List.getElem?_range hn] at this
    simpa using this

/-- Decomposition of a successful loop iteration. -/
lemma linkage_step_eq_some (fsolve : (ℝ → ℝ) → ℝ → ℝ) (l1 l2 l3 l4 : ℝ) (n : ℕ)
    (t : ℝ × ℝ × ℝ) (h : linkage_step fsolve l1 l2 l3 l4 n = some t) :
    t.1 = (n : ℝ) ∧ t.2.2 = theta4_at fsolve l1 l2 l3 l4 n ∧
      theta3_step l1 l2 l3 l4 (n : ℝ) (theta4_at fsolve l1 l2 l3 l4 n) = some t.2.1 := by
  simp only [linkage_step] at h
  rcases ho : theta3_step l1 l2 l3 l4 (n : ℝ) (theta4_at fsolve l1 l2 l3 l4 n) with _ | t3 <;>
    rw [ho] at h
  · exact absurd h (by simp)
  · simp only [Option.map_some', Option.some.injEq] at h
    rw [← h]
    exact ⟨rfl, rfl, rfl⟩

/-- Claim C7: a successful solve produces exactly 361 samples, one per
integer driving angle θ2 = 0, 1, ..., 360, ordered by θ2 ascending: the
sample at index `i` carries θ2 = `i`.  This full list is the profile the
core hands to the rendering consumer. -/
theorem motion_profile_length_and_order (fsolve : (ℝ → ℝ) → ℝ → ℝ) (l1 l2 l3 l4 : ℝ)
    (h1 : 0 < l1) (h2 : 0 < l2) (h3 : 0 < l3) (h4 : 0 < l4)
    (p : List (ℝ × ℝ × ℝ)) (hp : calculate_linkage fsolve l1 l2 l3 l4 = some p) :
    p.length = 361 ∧ ∀ (i : ℕ) (t : ℝ × ℝ × ℝ), p[i]? = some t → t.1 = (i : ℝ) := by
  obtain ⟨hlen, hget⟩ := calculate_linkage_some_getElem fsolve l1 l2 l3 l4 p hp
  refine ⟨hlen, ?_⟩
  intro i t ht
  by_cases hi : i < 361
  · rw [hget i hi] at ht
    exact (linkage_step_eq_some fsolve l1 l2 l3 l4 i t ht).1
  · rw [List.getElem?_eq_none (by omega : p.length ≤ i)] at ht
    exact absurd ht (by simp)

/-- Witness for C7: the mock constant-90 solve of `(2, 1, 2, 1)`
succeeds and its profile has 361 samples. -/
theorem motion_profile_length_and_order_witness :
    calculate_linkage (fun _f _x => (90:ℝ)) 2 1 2 1 = some (profileC 90) ∧
    (profileC 90).length = 361 :=
  ⟨calculate_linkage_const 90,
   (motion_profile_length_and_order (fun _f _x => (90:ℝ)) 2 1 2 1
     (by norm_num) (by norm_num) (by norm_num) (by norm_num)
     (profileC 90) (calculate_linkage_const 90)).1⟩

/-- Claim C3: in a successful solve, each stored output angle θ4 is
exactly the root-finder's value on the Freudenstein residual
`L3 + L2·cos θ4 − L1·cos θ2 − cos(θ2 − θ4)` (cosines of degree
arguments), with `L1 = l1/l4`, `L2 = l1/l2`,
`L3 = (l1² + l2² − l3² + l4²)/(2·l2·l4)`, and every per-angle root-find
is seeded with the Step-1 `theta4_max`. -/
theorem freudenstein_residual_and_seed (fsolve : (ℝ → ℝ) → ℝ → ℝ) (l1 l2 l3 l4 : ℝ)
    (h1 : 0 < l1) (h2 : 0 < l2) (h3 : 0 < l3) (h4 : 0 < l4)
    (p : List (ℝ × ℝ × ℝ)) (hp : calculate_linkage fsolve l1 l2 l3 l4 = some p)
    (n : ℕ) (t : ℝ × ℝ × ℝ) (ht : p[n]? = some t) :
    t.2.2 = fsolve
      (fun t4 => (l1^2 + l2^2 - l3^2 + l4^2) / (2*l2*l4) + (l1/l2) * cosd t4
        - (l1/l4) * cosd (n : ℝ) - cosd ((n : ℝ) - t4))
      (theta4_max l1 l2 l3 l4) := by
  obtain ⟨hlen, hget⟩ := calculate_linkage_some_getElem fsolve l1 l2 l3 l4 p hp
  by_cases hi : n < 361
  · rw [hget n hi] at ht
    have h2 := (linkage_step_eq_some fsolve l1 l2 l3 l4 n t ht).2.1
    rw [h2]
    unfold theta4_at
    have hfun : freudenstein l1 l2 l3 l4 (n : ℝ) =
        fun t4 => (l1^2 + l2^2 - l3^2 + l4^2) / (2*l2*l4) + (l1/l2) * cosd t4
          - (l1/l4) * cosd (n : ℝ) - cosd ((n : ℝ) - t4) := by
      funext t4
      simp only [freudenstein]
      ring
    rw [hfun]
  · rw [List.getElem?_eq_none (by omega : p.length ≤ n)] at ht
    exact absurd ht (by simp)

lemma profileC_getElem_zero (c : ℝ) :
    (profileC c)[0]? = some (((0:ℕ) : ℝ), Real.arcsin ((sind c - sind ((0:ℕ) : ℝ)) / 2), c) := by
  unfold profileC
  rw [List.getElem?_map, List.getElem?_range (by norm_num)]
  rfl

lemma profileC_getElem_360 (c : ℝ) :
    (profileC c)[360]? = some (((360:ℕ) : ℝ), Real.arcsin ((sind c - sind ((360:ℕ) : ℝ)) / 2), c) := by
  unfold profileC
  rw [List.getElem?_map, List.getElem?_range (by norm_num)]
  rfl

/-- Witness for C3 at θ2 = 0 of the mock constant-90 solve: the stored
θ4 equals the root-finder applied to the instantiated residual with seed
`theta4_max 2 1 2 1`. -/
theorem freudenstein_residual_and_seed_witness :
    calculate_linkage (fun _f _x => (90:ℝ)) 2 1 2 1 = some (profileC 90) ∧
    ((((0:ℕ) : ℝ), Real.arcsin ((sind 90 - sind ((0:ℕ) : ℝ)) / 2), (90:ℝ)) : ℝ × ℝ × ℝ).2.2
      = (fun _f _x => (90:ℝ))
          (fun t4 => ((2:ℝ)^2 + 1^2 - 2^2 + 1^2) / (2*1*1) + ((2:ℝ)/1) * cosd t4
            - ((2:ℝ)/1) * cosd ((0:ℕ) : ℝ) - cosd (((0:ℕ) : ℝ) - t4))
          (theta4_max 2 1 2 1) :=
  ⟨calculate_linkage_const 90,
   freudenstein_residual_and_seed (fun _f _x => (90:ℝ)) 2 1 2 1
     (by norm_num) (by norm_num) (by norm_num) (by norm_num)
     (profileC 90) (calculate_linkage_const 90) 0 _ (profileC_getElem_zero 90)⟩

/-- Claim C9: in every successful profile, the samples at θ2 = 0 and
θ2 = 360 carry identical (θ3, θ4) pairs: over exact real arithmetic the
residual closures at 0° and 360° are equal functions (cos 0° = cos 360°,
cos(0° − t) = cos(360° − t)), both root-finds receive the same seed, and
the θ3 computation coincides (sin 0° = sin 360°). -/
theorem motion_profile_periodicity (fsolve : (ℝ → ℝ) → ℝ → ℝ) (l1 l2 l3 l4 : ℝ)
    (h1 : 0 < l1) (h2 : 0 < l2) (h3 : 0 < l3) (h4 : 0 < l4)
    (p : List (ℝ × ℝ × ℝ)) (hp : calculate_linkage fsolve l1 l2 l3 l4 = some p)
    (t s : ℝ × ℝ × ℝ) (h0 : p[0]? = some t) (h360 : p[360]? = some s) :
    t.2 = s.2 := by
  obtain ⟨hlen, hget⟩ := calculate_linkage_some_getElem fsolve l1 l2 l3 l4 p hp
  rw [hget 0 (by norm_num)] at h0
  rw [hget 360 (by norm_num)] at h360
  have hfr : freudenstein l1 l2 l3 l4 ((0:ℕ) : ℝ) = freudenstein l1 l2 l3 l4 ((360:ℕ) : ℝ) := by
    funext t4
    simp only [freudenstein]
    push_cast
    rw [show cosd (0:ℝ) = cosd 360 from by rw [cosd_0, cosd_360]]
    rw [show cosd ((0:ℝ) - t4) = cosd (360 - t4) from (cosd_sub_eq_of_add_360 t4).symm]
  have ht4 : theta4_at fsolve l1 l2 l3 l4 0 = theta4_at fsolve l1 l2 l3 l4 360 := by
    unfold theta4_at
    rw [hfr]
  have hth : theta3_step l1 l2 l3 l4 ((0:ℕ) : ℝ) (theta4_at fsolve l1 l2 l3 l4 360)
      = theta3_step l1 l2 l3 l4 ((360:ℕ) : ℝ) (theta4_at fsolve l1 l2 l3 l4 360) := by
    unfold theta3_step asin_arg
    push_cast
    norm_num [sind_0, sind_360, cosd_0, cosd_360]
  simp only [linkage_step] at h0 h360
  rw [ht4, hth] at h0
  rcases ho : theta3_step l1 l2 l3 l4 ((360:ℕ) : ℝ) (theta4_at fsolve l1 l2 l3 l4 360)
    with _ | t3 <;> rw [ho] at h0 h360
  · exact absurd h0 (by simp)
  · simp only [Option.map_some', Option.some.injEq] at h0 h360
    rw [← h0, ← h360]

/-- Witness for C9 on the mock constant-90 solve of `(2, 1, 2, 1)`: the
(θ3, θ4) pairs of the samples at θ2 = 0 and θ2 = 360 coincide. -/
theorem motion_profile_periodicity_witness :
    calculate_linkage (fun _f _x => (90:ℝ)) 2 1 2 1 = some (profileC 90) ∧
    ((((0:ℕ) : ℝ), Real.arcsin ((sind 90 - sind ((0:ℕ) : ℝ)) / 2), (90:ℝ)) : ℝ × ℝ × ℝ).2
      = ((((360:ℕ) : ℝ), Real.arcsin ((sind 90 - sind ((360:ℕ) : ℝ)) / 2), (90:ℝ)) : ℝ × ℝ × ℝ).2 :=
  ⟨calculate_linkage_const 90,
   motion_profile_periodicity (fun _f _x => (90:ℝ)) 2 1 2 1
     (by norm_num) (by norm_num) (by norm_num) (by norm_num)
     (profileC 90) (calculate_linkage_const 90) _ _
     (profileC_getElem_zero 90) (profileC_getElem_360 90)⟩

lemma cosd_90 : cosd 90 = 0 := by
  unfold cosd
  rw [radians_90, Real.cos_pi_div_two]

lemma arcsin_one_half : Real.arcsin (1/2) = Real.pi / 6 := by
  rw [show (1/2 : ℝ) = Real.sin (Real.pi/6) from Real.sin_pi_div_six.symm]
  exact Real.arcsin_sin (by linarith [Real.pi_pos]) (by linarith [Real.pi_pos])

/-- Claim C4, evaluated on the code: at `l1=2, l2=1, l3=2, l4=1`, θ2 = 0
and a solved θ4 = 90, the branch condition selects the else-arm and the
source stores `theta3 = math.asin(1/2)` — the radian value
`arcsin(1/2) = π/6 ≈ 0.524` — whereas the claimed formula (the arcsin
result expressed in degrees) prescribes `30`.  The source never applies
`math.degrees` to `math.asin`, while mixing it with the degree constant
`180` in the other branch; the same radian value is what a full
successful solve stores in its profile. -/
theorem theta3_stored_in_radians :
    theta3_step 2 1 2 1 0 90 = some (Real.arcsin (1/2)) ∧
    calculate_linkage (fun _f _x => (90:ℝ)) 2 1 2 1 = some (profileC 90) ∧
    (profileC 90)[0]? = some (0, Real.arcsin (1/2), 90) ∧
    Real.arcsin (1/2) = Real.pi / 6 ∧
    degrees (Real.arcsin (1/2)) = 30 ∧
    Real.arcsin (1/2) ≠ degrees (Real.arcsin (1/2)) := by
  have h30 : degrees (Real.arcsin (1/2)) = 30 := by
    rw [arcsin_one_half]
    unfold degrees
    field_simp
    ring
  refine ⟨?_, calculate_linkage_const 90, ?_, arcsin_one_half, h30, ?_⟩
  · unfold theta3_step
    rw [if_neg ?br]
    case br =>
      norm_num [cosd_360, cosd_90]
    rw [if_neg ?dom]
    case dom =>
      unfold asin_arg
      norm_num [sind_90, sind_0]
    unfold asin_arg
    norm_num [sind_90, sind_0]
  · rw [profileC_getElem_zero 90]
    norm_num [sind_90, sind_0]
  · rw [h30, arcsin_one_half]
    intro hcontra
    have hpi : Real.pi < 3.15 := Real.pi_lt_d2
    linarith
